import Mathlib

/-!
Verification development for a job-board scraping pipeline.

The pipeline's core is embedded shallowly: Python strings become `List Char`,
JSON values become the inductive `Json`, dictionaries become association
lists, and the possibly non-terminating pagination loop becomes a
fuel-indexed recursion.  A Python exception escaping a `try` block is
modelled with `Except Unit`; a normalizer's `return None` and an exhausted
retry loop are modelled with `Option`.
-/

/-- Python strings are modelled as lists of characters, so that the
character-level cleaning done at persistence time can be reasoned about. -/
abbrev PyStr := List Char

/-- The characters of a Lean string literal, used to write `PyStr` constants. -/
def sChars (s : String) : PyStr := s.data

/-- The whitespace characters removed by Python's `str.strip()`. -/
def isPySpace (c : Char) : Bool :=
  c = ' ' || c = '\t' || c = '\n' || c = '\r' || c = '\x0b' || c = '\x0c'

/-- Python `s.strip()`: remove leading and trailing whitespace. -/
def pyStrip (s : PyStr) : PyStr :=
  ((s.dropWhile isPySpace).reverse.dropWhile isPySpace).reverse

/-- Python `s.strip(c)` for a single-character argument. -/
def pyStripChar (c : Char) (s : PyStr) : PyStr :=
  ((s.dropWhile (· = c)).reverse.dropWhile (· = c)).reverse

/-- Python `s.lower()` (ASCII case folding suffices for the fixed keyword
lists this repository compares against). -/
def pyLower (s : PyStr) : PyStr := s.map Char.toLower

/-- Python `s.split(sep)` for a single-character separator: keeps empty
parts, and splitting the empty string yields one empty part. -/
def pySplit (sep : Char) : PyStr → List PyStr
  | [] => [[]]
  | c :: rest =>
    match pySplit sep rest with
    | [] => [[]]
    | cur :: parts => if c = sep then [] :: cur :: parts else (c :: cur) :: parts

/-- Python `needle in hay` for strings: substring containment. -/
def containsSub (needle hay : PyStr) : Bool :=
  hay.tails.any (fun t => needle.isPrefixOf t)

/-- Python `s.replace(old, new)` where `old` is a single character: every
occurrence of `old` is replaced by the string `new`. -/
def pyReplace1 (old : Char) (new : PyStr) (s : PyStr) : PyStr :=
  s.flatMap (fun c => if c = old then new else [c])

/-- Split a URL at the first `://`, returning the scheme part and the rest. -/
def splitSchemeSep : PyStr → Option (PyStr × PyStr)
  | [] => none
  | ':' :: '/' :: '/' :: rest => some ([], rest)
  | c :: rest => (splitSchemeSep rest).map (fun p => (c :: p.1, p.2))

/-- The scheme-plus-host portion of a URL (everything before the first `/`
that follows `://`). -/
def hostPart (base : PyStr) : PyStr :=
  match splitSchemeSep base with
  | some (sch, rest) => sch ++ sChars "://" ++ rest.takeWhile (· ≠ '/')
  | none => base.takeWhile (· ≠ '/')

/-- `base` with its final path segment removed (the trailing `/` is kept). -/
def dropLastSegment (base : PyStr) : PyStr :=
  (base.reverse.dropWhile (· ≠ '/')).reverse

/-- Modelled from `urllib.parse.urljoin`, restricted to the reference shapes
this repository produces: an absolute reference is returned unchanged, an
absolute-path reference replaces the base URL's whole path, and any other
reference replaces the base URL's final path segment. -/
def urljoin (base ref : PyStr) : PyStr :=
  if (sChars "http").isPrefixOf ref then ref
  else if ref.head? = some '/' then hostPart base ++ ref
  else dropLastSegment base ++ ref

/-- JSON values as the scrapers receive them after `response.json()`.
Numbers are modelled as integers (the job records this repository consumes
carry no fractional numbers); objects are association lists. -/
inductive Json where
  | str (s : PyStr)
  | num (n : Int)
  | bool (b : Bool)
  | null
  | arr (elems : List Json)
  | obj (fields : List (String × Json))

/-- Python truthiness of a JSON value, as used by `if job.get(field):`. -/
def truthy : Json → Bool
  | .str s => !s.isEmpty
  | .num n => n ≠ 0
  | .bool b => b
  | .null => false
  | .arr xs => !xs.isEmpty
  | .obj fs => !fs.isEmpty

/-- Python `d.get(k)`: `none` when the key is absent. -/
def pyGet (fields : List (String × Json)) (k : String) : Option Json :=
  (fields.find? (fun kv => kv.1 == k)).map (·.2)

/-- Python `d.get(k, default)`: the stored value when the key is present
(even a falsy one), otherwise the default. -/
def pyGetD (fields : List (String × Json)) (k : String) (d : Json) : Json :=
  (pyGet fields k).getD d

/-- `d.get(k)` filtered through truthiness: `some v` exactly when the key is
present with a truthy value, matching the guard `if job.get(k):`. -/
def truthyGet (fields : List (String × Json)) (k : String) : Option Json :=
  match pyGet fields k with
  | some v => if truthy v then some v else none
  | none => none

/-- Python `str()` applied to a JSON scalar.  The scrapers only ever apply
it to strings and numbers; rendering of containers (which Python would show
as their repr) is approximated by the empty string and is unexercised. -/
def pyStr : Json → PyStr
  | .str s => s
  | .num n => sChars (toString n)
  | .bool true => sChars "True"
  | .bool false => sChars "False"
  | .null => sChars "None"
  | .arr _ => []
  | .obj _ => []

/-- Python iteration over a JSON value: lists yield their elements, strings
their characters, dicts their keys; scalars are not iterable (`none` models
the `TypeError`). -/
def jsonIter : Json → Option (List Json)
  | .arr xs => some xs
  | .str s => some (s.map (fun c => Json.str [c]))
  | .obj fs => some (fs.map (fun kv => Json.str (sChars kv.1)))
  | _ => none

/-- The canonical seven-field job record produced by every strategy. -/
structure Job where
  job_id : PyStr
  title : PyStr
  location : PyStr
  posting_date : PyStr
  url : PyStr
  company : PyStr
  scraped_at : PyStr
deriving DecidableEq

namespace Workday

/-! Embedding of `workday_simple_api.py` (`SimpleWorkdayAPIJobScraper`).
The scraper object's attributes (`base_url`, parsed company name, and the
normalization timestamp) are passed as explicit arguments. -/

/-- Title-candidate keys of `process_job_data`. -/
def titleFields : List String := ["title", "jobTitle", "positionTitle", "name", "jobName"]

/-- Explicit identifier keys tried by Method 3 of `process_job_data`. -/
def idFields : List String := ["id", "jobId", "postingId", "requisitionId", "externalJobId"]

/-- Posting-date keys of `process_job_data`. -/
def dateFields : List String := ["postedOn", "postingDate", "datePosted", "createdDate", "publishedDate"]

/-- Method 1 of the job-id extraction: the first string entry of
`bulletFields` with a non-empty strip, provided `bulletFields` is a truthy
list.  Returns `[]` when the method yields nothing. -/
def bullet_id (job : List (String × Json)) : PyStr :=
  match pyGet job "bulletFields" with
  | some (.arr fs) =>
    if fs.isEmpty then []
    else (fs.findSome? (fun f =>
      match f with
      | .str s => if pyStrip s ≠ [] then some (pyStrip s) else none
      | _ => none)).getD []
  | _ => []

/-- Method 2: derive the job id from `externalPath` — the suffix after the
last underscore when one is present, else the trailing path segment.
`.error` models the `TypeError` raised when a truthy non-string value meets
the string operations (the surrounding `except` then aborts the record). -/
def path_id (job : List (String × Json)) : Except Unit PyStr :=
  match truthyGet job "externalPath" with
  | none => .ok []
  | some (.str s) =>
    .ok (if '_' ∈ s then (pySplit '_' s).getLastD []
         else
           let parts := pySplit '/' (pyStripChar '/' s)
           if parts.isEmpty then [] else parts.getLastD [])
  | some _ => .error ()

/-- Method 3: the explicit identifier fields in order, first truthy value
stringified. -/
def idfields_id (job : List (String × Json)) : PyStr :=
  (idFields.findSome? (fun k => (truthyGet job k).map pyStr)).getD []

/-- The job-id extraction of `process_job_data`: `bulletFields` first, then
`externalPath`, then the explicit identifier fields; a later method runs
only when every earlier one produced the empty string. -/
def job_id_of (job : List (String × Json)) : Except Unit PyStr :=
  let j1 := bullet_id job
  if j1 ≠ [] then .ok j1
  else
    match path_id job with
    | .error e => .error e
    | .ok j2 => if j2 ≠ [] then .ok j2 else .ok (idfields_id job)

/-- Title extraction: first truthy title-candidate key, stringified and
stripped; the empty string when every candidate is absent or falsy. -/
def title_of (job : List (String × Json)) : PyStr :=
  (titleFields.findSome? (fun k => (truthyGet job k).map (fun v => pyStrip (pyStr v)))).getD []

/-- Location extraction: `locationsText`, else `location` (a dict's `name`
entry, or the stringified value), else `primaryLocation` likewise; the
result is then stripped.  `.error` models the `AttributeError` raised by
`.strip()` on a non-string value. -/
def location_of (job : List (String × Json)) : Except Unit PyStr :=
  let raw : Json :=
    match truthyGet job "locationsText" with
    | some v => v
    | none =>
      match truthyGet job "location" with
      | some (.obj f) => pyGetD f "name" (.str [])
      | some v => .str (pyStr v)
      | none =>
        match truthyGet job "primaryLocation" with
        | some (.obj f) => pyGetD f "name" (.str [])
        | some v => .str (pyStr v)
        | none => .str []
  match raw with
  | .str s => .ok (pyStrip s)
  | _ => .error ()

/-- Posting-date extraction: first truthy date key, stringified. -/
def date_of (job : List (String × Json)) : PyStr :=
  (dateFields.findSome? (fun k => (truthyGet job k).map pyStr)).getD []

/-- URL construction: `externalPath` resolved against the base URL, else a
literal `url` field, else synthesized from the job id.  `.error` models the
`TypeError` from `urljoin` on a truthy non-string `externalPath`. -/
def url_of (base : PyStr) (job : List (String × Json)) (jid : PyStr) : Except Unit PyStr :=
  match truthyGet job "externalPath" with
  | some (.str s) => .ok (urljoin base s)
  | some _ => .error ()
  | none =>
    match truthyGet job "url" with
    | some v => .ok (pyStr v)
    | none => .ok (if jid ≠ [] then base ++ sChars "/job/" ++ jid else [])

/-- `process_job_data` of `workday_simple_api.py`: normalize one raw record;
`none` both for the final no-title rejection and for an exception caught by
the surrounding `try` (including the `AttributeError` from calling `.get` on
a non-dict record). -/
def process_job_data (base company now : PyStr) (j : Json) : Option Job :=
  match j with
  | .obj job =>
    match job_id_of job with
    | .error _ => none
    | .ok jid =>
      let title := title_of job
      match location_of job with
      | .error _ => none
      | .ok loc =>
        let pdate := date_of job
        match url_of base job jid with
        | .error _ => none
        | .ok u =>
          if title ≠ [] then
            some { job_id := jid, title := title, location := loc, posting_date := pdate,
                   url := u, company := company, scraped_at := now }
          else none
  | _ => none

/-- `extract_jobs_from_api_response`: read `jobPostings` (defaulting to the
empty list), and when truthy iterate it, keeping the successfully normalized
records.  `none` models an uncaught exception (non-dict response body, or a
non-iterable `jobPostings`). -/
def extract_jobs_from_api_response (base company now : PyStr) (data : Json) : Option (List Job) :=
  match data with
  | .obj fields =>
    let jp := pyGetD fields "jobPostings" (.arr [])
    if truthy jp then
      match jsonIter jp with
      | none => none
      | some items => some (items.filterMap (process_job_data base company now))
    else some []
  | _ => none

/-- Outcome of a pagination run: the loop broke and returned its accumulated
records, or an exception escaped the loop. -/
inductive ScrapeOutcome where
  | finished (jobs : List Job)
  | crashed
deriving DecidableEq

/-- The `while True` pagination loop of `scrape_jobs_api`, fuel-indexed
(`none` means the fuel ran out before the loop broke).  `server offset`
models `make_api_request` for the payload carrying that offset, `none`
being the exhausted-retries failure. -/
def scrape_jobs_api_loop (base company now : PyStr) (server : Nat → Option Json) (limit : Nat) :
    Nat → Nat → List Job → Option ScrapeOutcome
  | 0, _, _ => none
  | fuel + 1, offset, acc =>
    match server offset with
    | none => some (.finished acc)
    | some data =>
      match extract_jobs_from_api_response base company now data with
      | none => some .crashed
      | some jobs =>
        if jobs.isEmpty then some (.finished acc)
        else if jobs.length < limit then some (.finished (acc ++ jobs))
        else scrape_jobs_api_loop base company now server limit fuel (offset + limit) (acc ++ jobs)

/-- `scrape_jobs_api`: the pagination loop started at offset 0 with page
size 20 and an empty accumulator, as in the source. -/
def scrape_jobs_api (base company now : PyStr) (server : Nat → Option Json) (fuel : Nat) :
    Option ScrapeOutcome :=
  scrape_jobs_api_loop base company now server 20 fuel 0 []

/-- An upstream holding exactly the given records that honors the requested
page size: the page at `offset` carries `records[offset : offset+limit]`
under `jobPostings`. -/
def honestServer (records : List Json) (limit : Nat) (offset : Nat) : Option Json :=
  some (.obj [("jobPostings", .arr ((records.drop offset).take limit))])

end Workday

namespace Enhanced

/-! Embedding of `enhanced_pulte_scraper.py` (`EnhancedPulteJobScraper`). -/

/-- The job-identifying keys of `is_job_data`. -/
def jobFieldKeys : List String := ["title", "location", "id", "jobTitle", "position"]

/-- The container keys of `is_job_data` (and of `extract_jobs_from_response`). -/
def jobContainerKeys : List String := ["jobPostings", "jobs", "data", "results", "items"]

/-- `is_job_data`: classify a JSON body as job data.  A non-empty list is
classified by its first element's keys; a dict is classified positively when
some container key holds a list value, else by its own keys. -/
def is_job_data : Json → Bool
  | .arr (first :: _) =>
    match first with
    | .obj f => jobFieldKeys.any (fun k => (pyGet f k).isSome)
    | _ => false
  | .obj f =>
    if jobContainerKeys.any (fun c =>
        match pyGet f c with
        | some (.arr _) => true
        | _ => false) then true
    else jobFieldKeys.any (fun k => (pyGet f k).isSome)
  | _ => false

/-- Identifier keys of this file's `process_job_data` (no `externalJobId`). -/
def idFields : List String := ["id", "jobId", "postingId", "requisitionId"]

/-- Title-candidate keys of this file's `process_job_data` (no `jobName`). -/
def titleFields : List String := ["title", "jobTitle", "positionTitle", "name"]

/-- Posting-date keys of this file's `process_job_data` (no `publishedDate`). -/
def dateFields : List String := ["postedOn", "postingDate", "datePosted", "createdDate"]

/-- The `bulletFields` scan of the location extraction: entries whose `type`
mentions `location` contribute their `value`.  `.error` models the
`AttributeError` on a non-dict entry or a non-string `type`. -/
def bulletLocScan : List Json → Except Unit PyStr
  | [] => .ok []
  | .obj f :: rest =>
    match pyGetD f "type" (.str []) with
    | .str s =>
      if containsSub (sChars "location") (pyLower s)
      then .ok (pyStr (pyGetD f "value" (.str [])))
      else bulletLocScan rest
    | _ => .error ()
  | _ :: _ => .error ()

/-- Location extraction of this file's `process_job_data`: `locationsText`,
else `location` (dict's `name` entry or stringified), else the
`bulletFields` scan.  A truthy non-list `bulletFields` raises when iterated
or probed, modelled by `.error`. -/
def location_of (job : List (String × Json)) : Except Unit PyStr :=
  match truthyGet job "locationsText" with
  | some v => .ok (pyStr v)
  | none =>
    match truthyGet job "location" with
    | some (.obj f) => .ok (pyStr (pyGetD f "name" (.str [])))
    | some v => .ok (pyStr v)
    | none =>
      match truthyGet job "bulletFields" with
      | some (.arr fs) => bulletLocScan fs
      | some _ => .error ()
      | none => .ok []

/-- URL construction of this file's `process_job_data`: `externalPath`
resolved against the base URL, else a literal `url` field, else
`base/job_id`. -/
def url_of (base : PyStr) (job : List (String × Json)) (jid : PyStr) : Except Unit PyStr :=
  match truthyGet job "externalPath" with
  | some (.str s) => .ok (urljoin base s)
  | some _ => .error ()
  | none =>
    match truthyGet job "url" with
    | some v => .ok (pyStr v)
    | none => .ok (if jid ≠ [] then base ++ sChars "/" ++ jid else [])

/-- `process_job_data` of `enhanced_pulte_scraper.py`.  Unlike the
`workday_simple_api.py` version it returns the processed record
unconditionally — there is no title gate — so `none` arises only from a
non-dict record or an exception caught by the surrounding `try`. -/
def process_job_data (base now : PyStr) (j : Json) : Option Job :=
  match j with
  | .obj job =>
    let jid := (idFields.findSome? (fun k => (truthyGet job k).map pyStr)).getD []
    let title := (titleFields.findSome? (fun k => (truthyGet job k).map pyStr)).getD []
    match location_of job with
    | .error _ => none
    | .ok loc =>
      let pdate := (dateFields.findSome? (fun k => (truthyGet job k).map pyStr)).getD []
      match url_of base job jid with
      | .error _ => none
      | .ok u =>
        some { job_id := jid, title := title, location := loc, posting_date := pdate,
               url := u, company := sChars "PulteGroup", scraped_at := now }
  | _ => none

/-- The two strategies `scrape_jobs` can run. -/
inductive Strategy where
  | api
  | markup
deriving DecidableEq

/-- `scrape_jobs`, the strategy orchestrator, with the two network-bound
strategies abstracted by their result lists; the second component records
the strategies invoked, in order.  The function is total: when both
strategies come back empty it returns the empty list (after logging a
diagnostic) rather than raising. -/
def scrape_jobs (apiJobs seleniumJobs : List Job) : List Job × List Strategy :=
  if !apiJobs.isEmpty then (apiJobs, [Strategy.api])
  else if !seleniumJobs.isEmpty then (seleniumJobs, [Strategy.api, Strategy.markup])
  else ([], [Strategy.api, Strategy.markup])

/-- The retry loop of `make_request`.  `net attempt` abstracts one request
attempt (`none`: a network-level failure or the non-2xx raised by
`raise_for_status`); the second result component records the sleeps
performed, each `delay` times the 1-based number of the attempt that just
failed, and no sleep follows the final attempt. -/
def make_request_go {α : Type} (net : Nat → Option α) (maxRetries : Nat) (delay : ℚ)
    (attempt : Nat) (sleeps : List ℚ) : Option α × List ℚ :=
  if attempt < maxRetries then
    match net attempt with
    | some r => (some r, sleeps)
    | none =>
      make_request_go net maxRetries delay (attempt + 1)
        (if attempt < maxRetries - 1 then sleeps ++ [delay * ((attempt : ℚ) + 1)] else sleeps)
  else (none, sleeps)
termination_by maxRetries - attempt

/-- `make_request`: run the attempts from 0; after exhausting every retry
the first component is `none` — a value, not an exception. -/
def make_request {α : Type} (net : Nat → Option α) (maxRetries : Nat) (delay : ℚ) :
    Option α × List ℚ :=
  make_request_go net maxRetries delay 0 []

end Enhanced

namespace SimpleScraper

/-! Embedding of `simple_pulte_scraper.py` (`SimplePulteJobScraper`). -/

/-- A rendered DOM element, abstracted by exactly the queries
`extract_job_from_element` performs on it: its tag name, its own stripped
text, the stripped text of the first match of a CSS selector (`none` when
no element matches), an attribute lookup, and the `href` of the first
descendant anchor carrying one. -/
structure Element where
  tag : String
  strippedText : PyStr
  selectText : String → Option PyStr
  attr : String → Option PyStr
  childHref : Option PyStr

/-- The title selector candidates of `extract_job_from_element`. -/
def titleSelectors : List String :=
  ["h1", "h2", "h3", "h4", ".title", ".job-title", "[data-automation-id*=\"title\"]"]

/-- The location selector candidates. -/
def locationSelectors : List String :=
  [".location", ".job-location", "[data-automation-id*=\"location\"]"]

/-- The date selector candidates. -/
def dateSelectors : List String :=
  [".date", ".job-date", "[data-automation-id*=\"date\"]"]

/-- The keywords that let bare element text pass as a job title. -/
def titleKeywords : List String :=
  ["engineer", "manager", "analyst", "specialist", "coordinator", "director", "associate"]

/-- The attributes scanned for a fallback job id. -/
def idAttributes : List String := ["data-job-id", "id", "data-automation-id"]

/-- The href-to-URL branch shared by both link sources: an absolute path is
resolved against the base URL, an absolute URL is kept, anything else
leaves the URL empty. -/
def hrefToUrl (base : PyStr) (href : PyStr) : PyStr :=
  if href.head? = some '/' then urljoin base href
  else if (sChars "http").isPrefixOf href then href
  else []

/-- The shared selector walk: the stripped text of the first selector whose
match exists and has non-empty text. -/
def sel_first_text (e : Element) (sels : List String) : PyStr :=
  (sels.findSome? (fun sel =>
    (e.selectText sel).bind (fun t => if t.isEmpty then none else some t))).getD []

/-- The title pipeline of `extract_job_from_element`: anchor text, else the
first non-empty title-selector match, else the element's own text when it
is shorter than 200 characters and mentions a job keyword. -/
def title_text_of (e : Element) : PyStr :=
  let t1 : PyStr := if e.tag == "a" && !e.strippedText.isEmpty then e.strippedText else []
  let t2 : PyStr := if t1.isEmpty then sel_first_text e titleSelectors else t1
  if t2.isEmpty then
    if !e.strippedText.isEmpty && e.strippedText.length < 200 &&
        titleKeywords.any (fun w => containsSub (sChars w) (pyLower e.strippedText))
    then e.strippedText else []
  else t2

/-- The URL branch of `extract_job_from_element`: the element's own `href`
when it is an anchor with a truthy one, else the first descendant anchor's
`href`, each resolved through the absolute-path / absolute-URL branch. -/
def url_field_of (base : PyStr) (e : Element) : PyStr :=
  if e.tag == "a" && (match e.attr "href" with | some h => !h.isEmpty | none => false) then
    match e.attr "href" with
    | some h => hrefToUrl base h
    | none => []
  else
    match e.childHref with
    | some h => hrefToUrl base h
    | none => []

/-- The job-id extraction of `extract_job_from_element`: the last URL
segment that is non-empty, does not start with `http` and is longer than 3
characters; else the first truthy id attribute. -/
def job_id_field_of (base : PyStr) (e : Element) : PyStr :=
  let url := url_field_of base e
  let jid1 : PyStr :=
    if url.isEmpty then []
    else
      ((pySplit '/' url).reverse.findSome? (fun part =>
        if !part.isEmpty && !(sChars "http").isPrefixOf part && 3 < part.length
        then some part else none)).getD []
  if jid1.isEmpty then
    (idAttributes.findSome? (fun a =>
      (e.attr a).bind (fun v => if v.isEmpty then none else some v))).getD []
  else jid1

/-- `extract_job_from_element`: normalize one DOM element.  The title text
is truncated to 200 characters at assignment, and the element is kept only
when the stored title is non-empty and its strip is strictly longer than 3
characters. -/
def extract_job_from_element (base now : PyStr) (e : Element) : Option Job :=
  let title : PyStr := if (title_text_of e).isEmpty then [] else (title_text_of e).take 200
  if !title.isEmpty && 3 < (pyStrip title).length then
    some { job_id := job_id_field_of base e, title := title,
           location := sel_first_text e locationSelectors,
           posting_date := sel_first_text e dateSelectors,
           url := url_field_of base e, company := sChars "PulteGroup", scraped_at := now }
  else none

/-- The deduplication identity used by `parse_jobs_from_html`. -/
def jobKey (j : Job) : PyStr × PyStr := (j.title, j.url)

/-- The deduplication step of `parse_jobs_from_html`: walk the extracted
records in order, keeping a record exactly when its `(title, url)` pair has
not been seen before. -/
def dedup_jobs : List Job → List (PyStr × PyStr) → List Job
  | [], _ => []
  | j :: rest, seen =>
    if jobKey j ∈ seen then dedup_jobs rest seen
    else j :: dedup_jobs rest (jobKey j :: seen)

end SimpleScraper

namespace Sink

/-- The per-value cleaning applied by `save_to_csv` (the code is identical
in `enhanced_pulte_scraper.py` and `simple_pulte_scraper.py`): strip the
value, replace each newline character by one space, then delete each
carriage-return character. -/
def clean_value (s : PyStr) : PyStr :=
  pyReplace1 '\r' [] (pyReplace1 '\n' [' '] (pyStrip s))

/-- One CSV row of `save_to_csv`: the seven canonical fields in their fixed
column order, each passed through `clean_value`.  (Record fields are
strings in this model, so the `isinstance(value, str)` guard is always
taken.) -/
def save_to_csv_row (j : Job) : List PyStr :=
  [clean_value j.job_id, clean_value j.title, clean_value j.location,
   clean_value j.posting_date, clean_value j.url, clean_value j.company,
   clean_value j.scraped_at]

end Sink

/-! ## Claim C1 — the no-title rejection -/

/-- C1, counterexample.  The claim asserts that `process_job_data` returns
nil for every raw record lacking all title-candidate keys, in both files.
The empty record lacks every candidate key, yet the
`enhanced_pulte_scraper.py` normalizer returns it as a record whose title
is the empty string. -/
theorem c1_counterexample :
    (Workday.titleFields.all (fun k => (pyGet [] k).isNone))
    ∧ Enhanced.process_job_data [] [] (.obj []) =
        some { job_id := [], title := [], location := [], posting_date := [], url := [],
               company := sChars "PulteGroup", scraped_at := [] } := by
  decide

/-- C1 (amended): in the `workday_simple_api.py` normalizer the claim holds —
a raw record lacking every title-candidate key is rejected (`none`), and
every record this normalizer returns has a non-empty title.  The
`enhanced_pulte_scraper.py` normalizer lacks the gate. -/
theorem c1_theorem (base company now : PyStr) :
    (∀ job : List (String × Json), (∀ k ∈ Workday.titleFields, pyGet job k = none) →
      Workday.process_job_data base company now (.obj job) = none)
    ∧ ∀ (j : Json) (r : Job), Workday.process_job_data base company now j = some r →
        r.title ≠ [] := by
  constructor
  · intro job h
    have h1 := h "title" (by simp [Workday.titleFields])
    have h2 := h "jobTitle" (by simp [Workday.titleFields])
    have h3 := h "positionTitle" (by simp [Workday.titleFields])
    have h4 := h "name" (by simp [Workday.titleFields])
    have h5 := h "jobName" (by simp [Workday.titleFields])
    have htitle : Workday.title_of job = [] := by
      simp [Workday.title_of, Workday.titleFields, List.findSome?, truthyGet, h1, h2, h3, h4, h5]
    unfold Workday.process_job_data
    cases hjid : Workday.job_id_of job with
    | error e => simp [hjid]
    | ok jid =>
      cases hloc : Workday.location_of job with
      | error e => simp [hjid, hloc]
      | ok loc =>
        cases hurl : Workday.url_of base job jid with
        | error e => simp [hjid, hloc, hurl]
        | ok u => simp [hjid, hloc, hurl, htitle]
  · intro j r hr
    cases j with
    | obj job =>
      unfold Workday.process_job_data at hr
      cases hjid : Workday.job_id_of job with
      | error e => simp [hjid] at hr
      | ok jid =>
        cases hloc : Workday.location_of job with
        | error e => simp [hjid, hloc] at hr
        | ok loc =>
          cases hurl : Workday.url_of base job jid with
          | error e => simp [hjid, hloc, hurl] at hr
          | ok u =>
            by_cases ht : Workday.title_of job = []
            · simp [hjid, hloc, hurl, ht] at hr
            · simp [hjid, hloc, hurl, ht] at hr
              subst hr
              simpa using ht
    | str s => simp [Workday.process_job_data] at hr
    | num n => simp [Workday.process_job_data] at hr
    | bool b => simp [Workday.process_job_data] at hr
    | null => simp [Workday.process_job_data] at hr
    | arr xs => simp [Workday.process_job_data] at hr

/-- C1, witness: the amended theorem applied at concrete records — a record
carrying only an `id` is rejected, and a record returned for a `title` of
`Test` has that non-empty title. -/
theorem c1_witness :
    Workday.process_job_data [] [] [] (.obj [("id", Json.str ['9'])]) = none
    ∧ sChars "Test" ≠ ([] : PyStr) :=
  ⟨(c1_theorem [] [] []).1 [("id", Json.str ['9'])] (by intro k hk; fin_cases hk <;> rfl),
   (c1_theorem [] [] []).2 (.obj [("title", Json.str (sChars "Test"))])
     { job_id := [], title := sChars "Test", location := [], posting_date := [], url := [],
       company := [], scraped_at := [] } (by decide)⟩

/-! ## Claim C4 — the job-data classifier -/

/-- The classification exactly as the claim words it: a dict classifies
positively through a container key only when the container's value is
itself a non-empty list whose first element is an object carrying a
job-identifying key. -/
def is_job_data_claimed (v : Json) : Bool :=
  (match v with
   | .arr (Json.obj f :: _) => Enhanced.jobFieldKeys.any (fun k => (pyGet f k).isSome)
   | _ => false)
  || (match v with
      | .obj fs => Enhanced.jobContainerKeys.any (fun c =>
          match pyGet fs c with
          | some (.arr (Json.obj f :: _)) => Enhanced.jobFieldKeys.any (fun k => (pyGet f k).isSome)
          | _ => false)
      | _ => false)
  || (match v with
      | .obj fs => Enhanced.jobFieldKeys.any (fun k => (pyGet fs k).isSome)
      | _ => false)

/-- The claim's classification amended to what the code checks: a container
key classifies the dict positively when its value is any list, regardless
of the list's contents. -/
def is_job_data_amended (v : Json) : Bool :=
  (match v with
   | .arr (Json.obj f :: _) => Enhanced.jobFieldKeys.any (fun k => (pyGet f k).isSome)
   | _ => false)
  || (match v with
      | .obj fs => Enhanced.jobContainerKeys.any (fun c =>
          match pyGet fs c with
          | some (.arr _) => true
          | _ => false)
      | _ => false)
  || (match v with
      | .obj fs => Enhanced.jobFieldKeys.any (fun k => (pyGet fs k).isSome)
      | _ => false)

/-- C4, counterexample: a dict whose `data` key holds the empty list is not
"a dict containing a container key whose value is such a list", yet
`is_job_data` classifies it positively. -/
theorem c4_counterexample :
    Enhanced.is_job_data (.obj [("data", Json.arr [])]) = true
    ∧ is_job_data_claimed (.obj [("data", Json.arr [])]) = false := by
  decide

/-- C4 (amended): `is_job_data` classifies exactly as the claim states once
the container clause asks only for a list value; and the non-job body with
a lone `status` key still classifies negatively. -/
theorem c4_theorem :
    (∀ v : Json, Enhanced.is_job_data v = is_job_data_amended v)
    ∧ Enhanced.is_job_data (.obj [("status", Json.str (sChars "ok"))]) = false := by
  constructor
  · intro v
    cases v with
    | str s => rfl
    | num n => rfl
    | bool b => rfl
    | null => rfl
    | arr xs =>
      cases xs with
      | nil => rfl
      | cons first rest => cases first <;> simp [Enhanced.is_job_data, is_job_data_amended]
    | obj fs =>
      by_cases h : Enhanced.jobContainerKeys.any (fun c =>
          match pyGet fs c with
          | some (.arr _) => true
          | _ => false) = true
      · simp [Enhanced.is_job_data, is_job_data_amended, h]
      · simp [Enhanced.is_job_data, is_job_data_amended, h]
  · decide

/-! ## Claim C5 — strategy fallback and exhaustion -/

/-- C5: when the endpoint strategy yields zero records the orchestrator
invokes the markup strategy, and when both strategies yield zero records
it returns the empty list (the embedded `scrape_jobs` is a total function —
exhaustion produces a value, not an exception). -/
theorem c5_theorem (apiJobs seleniumJobs : List Job) (h : apiJobs = []) :
    Enhanced.Strategy.markup ∈ (Enhanced.scrape_jobs apiJobs seleniumJobs).2
    ∧ (seleniumJobs = [] → (Enhanced.scrape_jobs apiJobs seleniumJobs).1 = []) := by
  subst h
  cases seleniumJobs <;> simp [Enhanced.scrape_jobs]

/-- C5, witness: both strategies empty — the markup strategy is invoked and
the result is the empty list. -/
theorem c5_witness :
    Enhanced.Strategy.markup ∈ (Enhanced.scrape_jobs [] []).2
    ∧ (([] : List Job) = [] → (Enhanced.scrape_jobs [] []).1 = []) :=
  c5_theorem [] [] rfl

/-! ## Claim C3 — job-id extraction priority -/

deriving instance DecidableEq for Except

/-- The externalPath derivation viewed as a pure function: its value when
the field is absent, falsy, or a string.  (When the field holds a truthy
non-string, `Workday.path_id` errors instead and the record is aborted.) -/
def path_id_value (job : List (String × Json)) : PyStr :=
  match truthyGet job "externalPath" with
  | some (.str s) =>
    if '_' ∈ s then (pySplit '_' s).getLastD []
    else
      let parts := pySplit '/' (pyStripChar '/' s)
      if parts.isEmpty then [] else parts.getLastD []
  | _ => []

/-- The job-id selection exactly as the claim orders it: the explicit
identifier fields first, then the externalPath derivation, then the tail
segment of the built URL. -/
def job_id_claimed (base : PyStr) (job : List (String × Json)) : PyStr :=
  let j1 := Workday.idfields_id job
  if j1 ≠ [] then j1
  else
    let j2 := path_id_value job
    if j2 ≠ [] then j2
    else
      let u : PyStr :=
        match truthyGet job "externalPath" with
        | some (.str s) => urljoin base s
        | _ =>
          match truthyGet job "url" with
          | some v => pyStr v
          | none => []
      (pySplit '/' u).getLastD []

/-- The record refuting the claimed job-id priority: it carries both an
explicit `id` field and an `externalPath`. -/
def c3job : List (String × Json) :=
  [("id", Json.str (sChars "999")), ("externalPath", Json.str (sChars "/a/b_JR1")),
   ("title", Json.str ['T'])]

/-- C3, counterexample: with both an explicit `id` field and an
`externalPath` present, the claim's order picks `999` (explicit field
first) but `process_job_data` picks the externalPath-derived `JR1`. -/
theorem c3_counterexample :
    job_id_claimed [] c3job = sChars "999"
    ∧ Workday.job_id_of c3job = .ok (sChars "JR1")
    ∧ (Workday.process_job_data [] [] [] (.obj c3job)).map Job.job_id = some (sChars "JR1")
    ∧ sChars "999" ≠ sChars "JR1" := by
  decide

/-- A successful `path_id` computes exactly `path_id_value`. -/
theorem path_id_ok_value (job : List (String × Json)) (j2 : PyStr)
    (h : Workday.path_id job = .ok j2) : j2 = path_id_value job := by
  unfold Workday.path_id at h
  cases htg : truthyGet job "externalPath" with
  | none =>
    rw [htg] at h
    simp only [Except.ok.injEq] at h
    subst h
    simp [path_id_value, htg]
  | some w =>
    rw [htg] at h
    cases w with
    | str s =>
      simp only [Except.ok.injEq] at h
      subst h
      simp [path_id_value, htg]
    | num n => simp at h
    | bool b => simp at h
    | null => simp at h
    | arr xs => simp at h
    | obj fs => simp at h

/-- C3 (amended): the workday normalizer's job id follows the priority
`bulletFields`, then `externalPath` (suffix after the last underscore, else
trailing path segment), then the explicit identifier fields; and whenever
the extraction completes without a type error, its result is empty only
when all three methods yield nothing. -/
theorem c3_theorem (job : List (String × Json)) (v : PyStr)
    (h : Workday.job_id_of job = .ok v) :
    (v = if Workday.bullet_id job ≠ [] then Workday.bullet_id job
         else if path_id_value job ≠ [] then path_id_value job
         else Workday.idfields_id job)
    ∧ (v = [] →
        Workday.bullet_id job = [] ∧ path_id_value job = [] ∧ Workday.idfields_id job = []) := by
  unfold Workday.job_id_of at h
  by_cases hb : Workday.bullet_id job = []
  · simp only [hb, ne_eq, not_true_eq_false, if_false] at h
    cases hp : Workday.path_id job with
    | error e => rw [hp] at h; simp at h
    | ok j2 =>
      rw [hp] at h
      rw [path_id_ok_value job j2 hp] at h
      by_cases hp2 : path_id_value job = []
      · simp only [hp2, ne_eq, not_true_eq_false, if_false, Except.ok.injEq] at h
        subst h
        constructor
        · simp [hb, hp2]
        · intro hv
          exact ⟨hb, hp2, hv⟩
      · simp only [ne_eq, hp2, not_false_eq_true, if_true, Except.ok.injEq] at h
        subst h
        constructor
        · simp [hb, hp2]
        · intro hv
          exact absurd hv hp2
  · simp only [ne_eq, hb, not_false_eq_true, if_true, Except.ok.injEq] at h
    subst h
    constructor
    · simp [hb]
    · intro hv
      exact absurd hv hb

/-- C3, witness record: a job id supplied through `bulletFields`. -/
def c3wjob : List (String × Json) := [("bulletFields", Json.arr [Json.str (sChars " BF11 ")])]

/-- C3, witness: the amended priority theorem applied at a record whose id
comes from `bulletFields`. -/
theorem c3_witness :
    (sChars "BF11" =
      if Workday.bullet_id c3wjob ≠ [] then Workday.bullet_id c3wjob
      else if path_id_value c3wjob ≠ [] then path_id_value c3wjob
      else Workday.idfields_id c3wjob)
    ∧ (sChars "BF11" = ([] : PyStr) →
        Workday.bullet_id c3wjob = [] ∧ path_id_value c3wjob = [] ∧
          Workday.idfields_id c3wjob = []) :=
  c3_theorem c3wjob (sChars "BF11") (by decide)

/-! ## Claim C9 — markup-strategy deduplication -/

namespace SimpleScraper

/-- Every record kept by the dedup walk has a key outside `seen`. -/
theorem dedup_key_not_seen (jobs : List Job) :
    ∀ (seen : List (PyStr × PyStr)) (j : Job),
      j ∈ dedup_jobs jobs seen → jobKey j ∉ seen := by
  induction jobs with
  | nil => intro seen j hj; simp [dedup_jobs] at hj
  | cons a rest ih =>
    intro seen j hj
    unfold dedup_jobs at hj
    by_cases ha : jobKey a ∈ seen
    · rw [if_pos ha] at hj
      exact ih seen j hj
    · rw [if_neg ha] at hj
      rcases List.mem_cons.mp hj with rfl | hj2
      · exact ha
      · have := ih (jobKey a :: seen) j hj2
        exact fun hmem => this (List.mem_cons_of_mem _ hmem)

/-- The keys of the dedup output are pairwise distinct. -/
theorem dedup_keys_nodup (jobs : List Job) :
    ∀ seen : List (PyStr × PyStr), ((dedup_jobs jobs seen).map jobKey).Nodup := by
  induction jobs with
  | nil => intro seen; simp [dedup_jobs]
  | cons a rest ih =>
    intro seen
    unfold dedup_jobs
    by_cases ha : jobKey a ∈ seen
    · rw [if_pos ha]; exact ih seen
    · rw [if_neg ha]
      simp only [List.map_cons, List.nodup_cons]
      refine ⟨?_, ih (jobKey a :: seen)⟩
      intro hmem
      rcases List.mem_map.mp hmem with ⟨j, hj, hkey⟩
      have := dedup_key_not_seen rest (jobKey a :: seen) j hj
      exact this (hkey ▸ List.mem_cons_self _ _)

/-- The dedup output is a subsequence of its input: surviving records keep
their relative order. -/
theorem dedup_sublist (jobs : List Job) :
    ∀ seen : List (PyStr × PyStr), (dedup_jobs jobs seen).Sublist jobs := by
  induction jobs with
  | nil => intro seen; simp [dedup_jobs]
  | cons a rest ih =>
    intro seen
    unfold dedup_jobs
    by_cases ha : jobKey a ∈ seen
    · rw [if_pos ha]; exact (ih seen).cons a
    · rw [if_neg ha]; exact (ih (jobKey a :: seen)).cons₂ a

/-- Every input record's key survives: either it was already seen, or some
output record carries it. -/
theorem dedup_covers (jobs : List Job) :
    ∀ (seen : List (PyStr × PyStr)) (j : Job), j ∈ jobs →
      jobKey j ∈ seen ∨ ∃ j' ∈ dedup_jobs jobs seen, jobKey j' = jobKey j := by
  induction jobs with
  | nil => intro seen j hj; simp at hj
  | cons a rest ih =>
    intro seen j hj
    unfold dedup_jobs
    rcases List.mem_cons.mp hj with rfl | hj2
    · by_cases ha : jobKey j ∈ seen
      · exact Or.inl ha
      · rw [if_neg ha]
        exact Or.inr ⟨j, List.mem_cons_self _ _, rfl⟩
    · by_cases ha : jobKey a ∈ seen
      · rw [if_pos ha]; exact ih seen j hj2
      · rw [if_neg ha]
        rcases ih (jobKey a :: seen) j hj2 with hseen | ⟨j', hj', hkey⟩
        · rcases List.mem_cons.mp hseen with heq | hseen2
          · exact Or.inr ⟨a, List.mem_cons_self _ _, heq.symm⟩
          · exact Or.inl hseen2
        · exact Or.inr ⟨j', List.mem_cons_of_mem _ hj', hkey⟩

/-- Each output record is the first input record with its key. -/
theorem dedup_first_occurrence (jobs : List Job) :
    ∀ (seen : List (PyStr × PyStr)) (j' : Job), j' ∈ dedup_jobs jobs seen →
      jobs.find? (fun x => decide (jobKey x = jobKey j')) = some j' := by
  induction jobs with
  | nil => intro seen j' hj; simp [dedup_jobs] at hj
  | cons a rest ih =>
    intro seen j' hj
    unfold dedup_jobs at hj
    by_cases ha : jobKey a ∈ seen
    · rw [if_pos ha] at hj
      have hne : jobKey a ≠ jobKey j' := by
        intro heq
        exact dedup_key_not_seen rest seen j' hj (heq ▸ ha)
      rw [List.find?_cons_of_neg _ (by simpa using hne)]
      exact ih seen j' hj
    · rw [if_neg ha] at hj
      rcases List.mem_cons.mp hj with rfl | hj2
      · rw [List.find?_cons_of_pos _ (by simp)]
      · have hnotin := dedup_key_not_seen rest (jobKey a :: seen) j' hj2
        have hne : jobKey a ≠ jobKey j' := by
          intro heq
          exact hnotin (heq ▸ List.mem_cons_self _ _)
        rw [List.find?_cons_of_neg _ (by simpa using hne)]
        exact ih (jobKey a :: seen) j' hj2

end SimpleScraper

/-- C9: the markup strategy's dedup collapses records sharing a
`(title, url)` pair to a single record — output keys are pairwise distinct,
every input key is represented — and the output is a subsequence of the
input in which each kept record is the first occurrence of its key. -/
theorem c9_theorem (jobs : List Job) :
    ((SimpleScraper.dedup_jobs jobs []).map SimpleScraper.jobKey).Nodup
    ∧ (SimpleScraper.dedup_jobs jobs []).Sublist jobs
    ∧ (∀ j ∈ jobs, ∃ j' ∈ SimpleScraper.dedup_jobs jobs [],
        SimpleScraper.jobKey j' = SimpleScraper.jobKey j)
    ∧ (∀ j' ∈ SimpleScraper.dedup_jobs jobs [],
        jobs.find? (fun x => decide (SimpleScraper.jobKey x = SimpleScraper.jobKey j'))
          = some j') := by
  refine ⟨SimpleScraper.dedup_keys_nodup jobs [], SimpleScraper.dedup_sublist jobs [], ?_, ?_⟩
  · intro j hj
    rcases SimpleScraper.dedup_covers jobs [] j hj with hseen | hfound
    · simp at hseen
    · exact hfound
  · intro j' hj'
    exact SimpleScraper.dedup_first_occurrence jobs [] j' hj'

/-- C9, witness elements: two records with the same `(title, url)` pair
that differ elsewhere, and one distinct record. -/
def c9jobA : Job :=
  { job_id := [], title := ['A'], location := [], posting_date := [], url := [],
    company := [], scraped_at := [] }

/-- The duplicate of `c9jobA` by key (same title and url, other location). -/
def c9jobA2 : Job := { c9jobA with location := ['L'] }

/-- A record with a different key. -/
def c9jobC : Job := { c9jobA with title := ['C'] }

/-- The concrete extraction order for the C9 witness. -/
def c9list : List Job := [c9jobA, c9jobA2, c9jobC]

/-- C9, witness: the dedup theorem applied at a list containing two records
with an identical `(title, url)` pair — the duplicate's key is still
represented, and the kept record is the first occurrence. -/
theorem c9_witness :
    (∃ j' ∈ SimpleScraper.dedup_jobs c9list [],
      SimpleScraper.jobKey j' = SimpleScraper.jobKey c9jobA2)
    ∧ c9list.find? (fun x => decide (SimpleScraper.jobKey x = SimpleScraper.jobKey c9jobA))
        = some c9jobA :=
  ⟨(c9_theorem c9list).2.2.1 c9jobA2 (by decide),
   (c9_theorem c9list).2.2.2 c9jobA (by decide)⟩

/-! ## Claim C8 — persistence-time string cleaning -/

/-- The cleaning exactly as the claim words it: after trimming, each
embedded newline and each carriage-return character is collapsed to a
single space. -/
def clean_value_claimed (s : PyStr) : PyStr :=
  (pyStrip s).map (fun c => if c = '\n' || c = '\r' then ' ' else c)

/-- C8, counterexample: the code deletes a carriage return instead of
collapsing it to a space. -/
theorem c8_counterexample :
    Sink.clean_value (sChars "a\rb") = sChars "ab"
    ∧ clean_value_claimed (sChars "a\rb") = sChars "a b"
    ∧ Sink.clean_value (sChars "a\rb") ≠ clean_value_claimed (sChars "a\rb") := by
  decide

/-- No newline and no carriage return survives `clean_value`. -/
theorem clean_value_no_ctrl (s : PyStr) :
    '\n' ∉ Sink.clean_value s ∧ '\r' ∉ Sink.clean_value s := by
  unfold Sink.clean_value
  constructor
  · intro hmem
    rw [pyReplace1, List.mem_flatMap] at hmem
    obtain ⟨a, ha, hin⟩ := hmem
    by_cases har : a = '\r'
    · simp [har] at hin
    · simp [har] at hin
      subst hin
      rw [pyReplace1, List.mem_flatMap] at ha
      obtain ⟨b, _, hbin⟩ := ha
      by_cases hbn : b = '\n'
      · simp [hbn] at hbin
      · simp [hbn] at hbin
        exact hbn hbin.symm
  · intro hmem
    rw [pyReplace1, List.mem_flatMap] at hmem
    obtain ⟨a, ha, hin⟩ := hmem
    by_cases har : a = '\r'
    · simp [har] at hin
    · simp [har] at hin
      exact har hin.symm

/-- C8 (amended): every persisted value is stripped, has each newline
replaced by one space and each carriage return removed — so no cell of a
persisted row contains a newline or carriage-return character. -/
theorem c8_theorem (j : Job) (cell : PyStr) (h : cell ∈ Sink.save_to_csv_row j) :
    '\n' ∉ cell ∧ '\r' ∉ cell := by
  simp only [Sink.save_to_csv_row, List.mem_cons, List.not_mem_nil, or_false] at h
  rcases h with rfl | rfl | rfl | rfl | rfl | rfl | rfl <;>
    exact clean_value_no_ctrl _

/-- C8, witness job: a title carrying whitespace, a newline and a carriage
return. -/
def c8job : Job :=
  { job_id := [], title := sChars " Site\nEngi\rneer ", location := [], posting_date := [],
    url := [], company := [], scraped_at := [] }

/-- C8, witness: the cleaned title cell of a concrete row contains neither
newline nor carriage return. -/
theorem c8_witness :
    Sink.clean_value (sChars " Site\nEngi\rneer ") ∈ Sink.save_to_csv_row c8job
    ∧ '\n' ∉ Sink.clean_value (sChars " Site\nEngi\rneer ")
    ∧ '\r' ∉ Sink.clean_value (sChars " Site\nEngi\rneer ") :=
  ⟨by simp [Sink.save_to_csv_row, c8job],
   (c8_theorem c8job _ (by simp [Sink.save_to_csv_row, c8job])).1,
   (c8_theorem c8job _ (by simp [Sink.save_to_csv_row, c8job])).2⟩

/-! ## Claim C10 — the markup title gate -/

/-- C10: the markup extractor returns a record only when the stored title's
strip is strictly longer than 3 characters, and the stored title is
truncated to at most 200 characters — so markup records whose trimmed title
has 1 to 3 characters are dropped. -/
theorem c10_theorem (base now : PyStr) (e : SimpleScraper.Element) (j : Job)
    (h : SimpleScraper.extract_job_from_element base now e = some j) :
    3 < (pyStrip j.title).length ∧ j.title.length ≤ 200 := by
  unfold SimpleScraper.extract_job_from_element at h
  dsimp only at h
  by_cases ht : (SimpleScraper.title_text_of e).isEmpty
  · rw [if_pos ht] at h
    simp at h
  · rw [if_neg ht] at h
    split at h
    · next hcond =>
      injection h with h2
      subst h2
      rw [Bool.and_eq_true, decide_eq_true_eq] at hcond
      exact ⟨hcond.2, List.length_take_le 200 _⟩
    · exact absurd h (by simp)

/-- C10, witness element: an anchor whose stripped text is `Site Engineer`,
with no selector matches, attributes or descendant links. -/
def c10elem : SimpleScraper.Element :=
  { tag := "a", strippedText := sChars "Site Engineer",
    selectText := fun _ => none, attr := fun _ => none, childHref := none }

/-- The record the markup extractor produces for `c10elem`. -/
def c10job : Job :=
  { job_id := [], title := sChars "Site Engineer", location := [], posting_date := [],
    url := [], company := sChars "PulteGroup", scraped_at := [] }

/-- C10, witness: the gate theorem applied at a concrete element that the
extractor keeps. -/
theorem c10_witness :
    SimpleScraper.extract_job_from_element [] [] c10elem = some c10job
    ∧ 3 < (pyStrip c10job.title).length ∧ c10job.title.length ≤ 200 :=
  ⟨by decide, c10_theorem [] [] c10elem c10job (by decide)⟩

/-! ## Claim C2 — pagination termination policy -/

/-- C2 (amended): one step of the pagination loop stops with its
accumulated records exactly when the page request fails, the page's
normalized records are empty, or fewer records than the page size remain
after normalization; otherwise it appends the page and advances the offset
by the page size. -/
theorem c2_theorem (base company now : PyStr) (server : Nat → Option Json)
    (limit fuel offset : Nat) (acc : List Job) :
    (server offset = none →
      Workday.scrape_jobs_api_loop base company now server limit (fuel + 1) offset acc
        = some (.finished acc))
    ∧ (∀ data jobs, server offset = some data →
        Workday.extract_jobs_from_api_response base company now data = some jobs →
        (jobs = [] →
          Workday.scrape_jobs_api_loop base company now server limit (fuel + 1) offset acc
            = some (.finished acc))
        ∧ (jobs ≠ [] → jobs.length < limit →
          Workday.scrape_jobs_api_loop base company now server limit (fuel + 1) offset acc
            = some (.finished (acc ++ jobs)))
        ∧ (jobs ≠ [] → limit ≤ jobs.length →
          Workday.scrape_jobs_api_loop base company now server limit (fuel + 1) offset acc
            = Workday.scrape_jobs_api_loop base company now server limit fuel (offset + limit)
                (acc ++ jobs))) := by
  constructor
  · intro hs
    conv_lhs => unfold Workday.scrape_jobs_api_loop
    simp [hs]
  · intro data jobs hs he
    refine ⟨?_, ?_, ?_⟩
    · intro hempty
      subst hempty
      conv_lhs => unfold Workday.scrape_jobs_api_loop
      simp [hs, he]
    · intro hne hlt
      conv_lhs => unfold Workday.scrape_jobs_api_loop
      simp [hs, he, hne, hlt]
    · intro hne hge
      conv_lhs => unfold Workday.scrape_jobs_api_loop
      simp [hs, he, hne, Nat.not_lt.mpr hge]

/-- C2, witness: a failing page request stops the loop with the records
accumulated so far. -/
theorem c2_witness :
    Workday.scrape_jobs_api_loop [] [] [] (fun _ => none) 20 1 0 [] = some (.finished []) :=
  (c2_theorem [] [] [] (fun _ => none) 20 0 0 []).1 rfl

/-- The upstream for the C2 counterexample: forty records, all
normalizable except the one at index 19, which lacks a title. -/
def c2records : List Json :=
  (List.range 40).map (fun i => if i = 19 then Json.obj [] else Json.obj [("title", Json.str ['T'])])

/-- The number of records a pagination outcome carries. -/
def outcomeSize : Workday.ScrapeOutcome → Nat
  | .finished l => l.length
  | .crashed => 0

/-- C2, counterexample: page 0 of this honest upstream yields a full raw
page — 20 records, exactly the requested page size — and 19 ≠ 0 normalized
records, so under the claim's policy the driver should advance and
eventually return all 39 normalizable records; the code instead halts at
page 0 with 19 records, because it compares the normalized count, not the
raw count, against the page size. -/
theorem c2_counterexample :
    (c2records.take 20).length = 20
    ∧ ((c2records.take 20).filterMap (Workday.process_job_data [] [] [])).length = 19
    ∧ (c2records.filterMap (Workday.process_job_data [] [] [])).length = 39
    ∧ (Workday.scrape_jobs_api [] [] [] (Workday.honestServer c2records 20) 5).map outcomeSize
        = some 19 := by
  decide

/-! ## Claim C6 — termination bound of the pagination loop -/

/-- An honest page extracts to exactly the normalization of its raw slice. -/
theorem extract_honest (base company now : PyStr) (raw : List Json) :
    Workday.extract_jobs_from_api_response base company now
      (.obj [("jobPostings", Json.arr raw)])
      = some (raw.filterMap (Workday.process_job_data base company now)) := by
  cases raw with
  | nil => rfl
  | cons a rest => rfl

/-- Fuel sufficiency against an honest upstream: once the records beyond
`offset` fit into `fuel` further full pages, the loop halts before running
out of fuel. -/
theorem c6_aux (base company now : PyStr) (records : List Json) (limit : Nat) :
    ∀ (fuel offset : Nat) (acc : List Job),
      records.length < offset + (fuel + 1) * limit →
      (Workday.scrape_jobs_api_loop base company now (Workday.honestServer records limit) limit
        (fuel + 1) offset acc).isSome = true := by
  intro fuel
  induction fuel with
  | zero =>
    intro offset acc hlt
    conv_lhs => unfold Workday.scrape_jobs_api_loop
    simp only [Workday.honestServer, extract_honest]
    set jobs := ((records.drop offset).take limit).filterMap
      (Workday.process_job_data base company now) with hjobs
    by_cases h1 : jobs.isEmpty
    · simp [h1]
    · by_cases h2 : jobs.length < limit
      · simp [h1, h2]
      · exfalso
        have hjr : jobs.length ≤ ((records.drop offset).take limit).length := by
          rw [hjobs]; exact List.length_filterMap_le _ _
        have hraw : ((records.drop offset).take limit).length
            = min limit (records.length - offset) := by
          simp [List.length_take, List.length_drop]
        have hpos : 0 < jobs.length :=
          List.length_pos.mpr (by simpa using h1)
        have hle : limit ≤ jobs.length := Nat.le_of_not_lt h2
        omega
  | succ n ih =>
    intro offset acc hlt
    conv_lhs => unfold Workday.scrape_jobs_api_loop
    simp only [Workday.honestServer, extract_honest]
    set jobs := ((records.drop offset).take limit).filterMap
      (Workday.process_job_data base company now) with hjobs
    by_cases h1 : jobs.isEmpty
    · simp [h1]
    · by_cases h2 : jobs.length < limit
      · simp [h1, h2]
      · simp only [h1, h2, if_false]
        have hmul : offset + (n + 1 + 1) * limit = offset + limit + (n + 1) * limit := by
          ring
        rw [hmul] at hlt
        exact ih (offset + limit) (acc ++ jobs) hlt

/-- C6: against an upstream of exactly N records honoring the requested
page size, the pagination loop halts within `ceil(N / page_size) + 1`
iterations (fuel `(N + limit - 1) / limit + 1` suffices); against an
upstream of zero records it halts after exactly one iteration — one unit of
fuel suffices and zero does not. -/
theorem c6_theorem (base company now : PyStr) (records : List Json) (limit : Nat)
    (h : 0 < limit) :
    (Workday.scrape_jobs_api_loop base company now (Workday.honestServer records limit) limit
        ((records.length + limit - 1) / limit + 1) 0 []).isSome = true
    ∧ Workday.scrape_jobs_api_loop base company now (Workday.honestServer [] limit) limit 1 0 []
        = some (.finished [])
    ∧ Workday.scrape_jobs_api_loop base company now (Workday.honestServer [] limit) limit 0 0 []
        = none := by
  refine ⟨?_, ?_, rfl⟩
  · apply c6_aux
    set q := (records.length + limit - 1) / limit with hqdef
    set m := (records.length + limit - 1) % limit with hmdef
    have hq : m + limit * q = records.length + limit - 1 := Nat.mod_add_div _ _
    have hm : m < limit := Nat.mod_lt _ h
    have hgoal : 0 + (q + 1) * limit = limit * q + limit := by ring
    rw [hgoal]
    omega
  · conv_lhs => unfold Workday.scrape_jobs_api_loop
    simp [Workday.honestServer, extract_honest]

/-- C6, witness upstream: three normalizable records. -/
def c6recs : List Json :=
  [Json.obj [("title", Json.str ['T'])], Json.obj [("title", Json.str ['U'])],
   Json.obj [("title", Json.str ['V'])]]

/-- C6, witness: the bound theorem applied at three records with page size
two — `ceil(3/2) + 1 = 3` units of fuel suffice. -/
theorem c6_witness :
    0 < 2
    ∧ ((Workday.scrape_jobs_api_loop [] [] [] (Workday.honestServer c6recs 2) 2
          ((c6recs.length + 2 - 1) / 2 + 1) 0 []).isSome = true
      ∧ Workday.scrape_jobs_api_loop [] [] [] (Workday.honestServer [] 2) 2 1 0 []
          = some (.finished [])
      ∧ Workday.scrape_jobs_api_loop [] [] [] (Workday.honestServer [] 2) 2 0 0 []
          = none) :=
  ⟨by decide, c6_theorem [] [] [] c6recs 2 (by decide)⟩

/-! ## Claim C7 — transport retry exhaustion -/

/-- Exhausted retries: when every attempt fails, the retry loop returns
`none` and the recorded sleeps are `delay × k` for each failed non-final
1-based attempt number `k`. -/
theorem make_request_go_all_fail {α : Type} (net : Nat → Option α) (maxRetries : Nat)
    (delay : ℚ) (h : ∀ i, i < maxRetries → net i = none) (attempt : Nat) (sleeps : List ℚ) :
    Enhanced.make_request_go net maxRetries delay attempt sleeps
      = (none, sleeps ++ (List.range' (attempt + 1) (maxRetries - 1 - attempt)).map
          (fun k => delay * (k : ℚ))) := by
  rw [Enhanced.make_request_go]
  by_cases hlt : attempt < maxRetries
  · rw [if_pos hlt, h attempt hlt]
    rw [make_request_go_all_fail net maxRetries delay h (attempt + 1)
      (if attempt < maxRetries - 1 then sleeps ++ [delay * ((attempt : ℚ) + 1)] else sleeps)]
    by_cases h2 : attempt < maxRetries - 1
    · rw [if_pos h2]
      have hcnt : maxRetries - 1 - attempt = (maxRetries - 1 - (attempt + 1)) + 1 := by omega
      rw [hcnt, List.range'_succ]
      push_cast
      simp [List.append_assoc]
    · rw [if_neg h2]
      have hc1 : maxRetries - 1 - attempt = 0 := by omega
      have hc2 : maxRetries - 1 - (attempt + 1) = 0 := by omega
      rw [hc1, hc2]
      simp
  · rw [if_neg hlt]
    have hc : maxRetries - 1 - attempt = 0 := by omega
    rw [hc]
    simp
termination_by maxRetries - attempt
decreasing_by omega

/-- C7: when all `max_retries` attempts fail, `make_request` returns `None`
as a value — never an exception — having slept `delay × attempt_number`
between consecutive attempts; and the pagination caller treats a `None`
response as end of data, finishing with its accumulated records rather
than failing the run. -/
theorem c7_theorem {α : Type} (net : Nat → Option α) (maxRetries : Nat) (delay : ℚ)
    (h : ∀ i, i < maxRetries → net i = none) :
    Enhanced.make_request net maxRetries delay
      = (none, (List.range' 1 (maxRetries - 1)).map (fun k => delay * (k : ℚ)))
    ∧ (∀ (base company now : PyStr) (server : Nat → Option Json) (limit fuel offset : Nat)
        (acc : List Job), server offset = none →
        Workday.scrape_jobs_api_loop base company now server limit (fuel + 1) offset acc
          = some (.finished acc)) := by
  constructor
  · have hgo := make_request_go_all_fail net maxRetries delay h 0 []
    simpa [Enhanced.make_request] using hgo
  · intro base company now server limit fuel offset acc hs
    conv_lhs => unfold Workday.scrape_jobs_api_loop
    simp [hs]

/-- C7, witness: three failing attempts at delay 1 produce `None` and the
sleep sequence 1, 2; the pagination loop finishes on the failed request. -/
theorem c7_witness :
    Enhanced.make_request (fun _ : Nat => (none : Option Unit)) 3 1
      = (none, (List.range' 1 (3 - 1)).map (fun k => (1 : ℚ) * (k : ℚ)))
    ∧ Workday.scrape_jobs_api_loop [] [] [] (fun _ => none) 7 1 0 [] = some (.finished []) :=
  ⟨(c7_theorem (fun _ : Nat => (none : Option Unit)) 3 1 (fun _ _ => rfl)).1,
   (c7_theorem (fun _ : Nat => (none : Option Unit)) 3 1 (fun _ _ => rfl)).2
     [] [] [] (fun _ => none) 7 0 0 [] rfl⟩
